import Mathlib

/-!
Verification of the messaging core of the `ark` Jupyter kernel runtime.

This development shallowly embeds the Rust source of the repository:
  - the wire codec (`src/wire/wire_message.rs`): delimiter search, HMAC
    signature validation and message decoding;
  - the Shell router (`src/socket/shell.rs`): busy/idle status bracketing,
    per-request dispatch and the execution counter;
  - the comm manager (`crates/amalthea/src/comm/comm_manager.rs`): the set of
    open comms, the pending-RPC table and message routing;
  - the StdIn reverse channel (`crates/amalthea/src/socket/stdin.rs`);
  - the lease discipline of the LSP backend (`crates/ark/src/lsp/backend.rs`);
  - the ark shell handler (`crates/ark/src/shell.rs`).

Byte strings are modelled as `List Nat` (one `Nat` per byte), channels as
lists of the values sent on them, and the HMAC-SHA256 primitive as an
abstract function from payload bytes to MAC bytes (the primitive lives in
the external `hmac` crate; every theorem below is either parametric in it or
instantiates it with an explicit executable stand-in).
-/

/-! ## Wire codec (`src/wire/wire_message.rs`) -/

/-- A single ZeroMQ frame: a byte string. -/
abbrev Frame := List Nat

/-- An HMAC instance, as passed around as `Option<Hmac<Sha256>>` in the
source: a function from the concatenated payload bytes (the source feeds the
buffers one by one into `Mac::update`) to the MAC bytes. -/
abbrev HmacFn := List Nat → List Nat

/-- The `<IDS|MSG>` delimiter (`MSG_DELIM` in the source), as ASCII bytes. -/
def msgDelim : Frame := [60, 73, 68, 83, 124, 77, 83, 71, 62]

/-- Modelled from the spec: the Jupyter message header
(`wire/header.rs` is not under `src/`); all fields are strings. -/
structure JupyterHeader where
  msg_id : String
  session : String
  username : String
  date : String
  msg_type : String
  version : String
deriving DecidableEq

/-- The untyped wire message (`WireMessage` in the source).  The four JSON
blobs and the buffers are kept as raw frames; `from_buffers` never actually
constructs this value (see `wire_from_buffers_never_ok`). -/
structure WireMessage where
  header : Frame
  parent_header : Frame
  metadata : Frame
  content : Frame
  buffers : List Frame
deriving DecidableEq

/-- `MessageError` from the source (the `zmq`/`hex`/`hmac` error payloads are
dropped; the byte strings carried by the hex and signature errors are kept). -/
inductive MessageError where
  | socketRead
  | missingDelimiter
  | insufficientParts (found : Nat) (expected : Nat)
  | invalidHmac (data : Frame)
  | badSignature (sig : Frame)
deriving DecidableEq

/-- `Iterator::position`: index of the first element satisfying `p`. -/
def position (p : α → Bool) : List α → Option Nat
  | [] => none
  | a :: rest => if p a then some 0 else (position p rest).map (· + 1)

/-- One hexadecimal ASCII digit to its value (`hex::decode`, per digit). -/
def hexDigit (c : Nat) : Option Nat :=
  if 48 ≤ c ∧ c ≤ 57 then some (c - 48)
  else if 97 ≤ c ∧ c ≤ 102 then some (c - 87)
  else if 65 ≤ c ∧ c ≤ 70 then some (c - 55)
  else none

/-- `hex::decode`: pairs of hex digits to bytes; fails on a non-hex digit or
an odd length. -/
def hexDecode : List Nat → Option (List Nat)
  | [] => some []
  | [_] => none
  | hi :: lo :: rest =>
    match hexDigit hi, hexDigit lo, hexDecode rest with
    | some h, some l, some r => some ((h * 16 + l) :: r)
    | _, _, _ => none

/-- Lowercase hex encoding of one nibble. -/
def hexDigitChar (n : Nat) : Nat := if n < 10 then 48 + n else 87 + n

/-- Lowercase hex encoding of a byte string (`hex::encode`). -/
def hexEncode : List Nat → List Nat
  | [] => []
  | b :: rest => hexDigitChar (b / 16 % 16) :: hexDigitChar (b % 16) :: hexEncode rest

/-- `WireMessage::validate_hmac`.  With no key it accepts.  Otherwise it pops
the LAST buffer of `bufs` (`bufs.pop().unwrap()`; the caller guarantees
`bufs` is nonempty) as the hex signature, decodes it, recomputes the MAC over
the REMAINING buffers in order and compares. -/
def validate_hmac (bufs : List Frame) (hmac_key : Option HmacFn) :
    Except MessageError Unit :=
  match hmac_key with
  | none => Except.ok ()
  | some key =>
    let data := (bufs.getLast?).getD []
    let rest := bufs.dropLast
    match hexDecode data with
    | none => Except.error (MessageError.invalidHmac data)
    | some decoded =>
      if key rest.flatten = decoded then Except.ok ()
      else Except.error (MessageError.badSignature decoded)

/-- `WireMessage::from_buffers`.  Finds the `<IDS|MSG>` delimiter at index
`pos`, drains the frames from index `pos + 2` on (`bufs.drain(pos + 2..)`,
which SKIPS the frame at `pos + 1`), requires at least 4 of them, validates
the HMAC over them, and then — as in the source — unconditionally returns
`Err(MessageError::MissingDelimiter)`. -/
def from_buffers (bufs : List Frame) (hmac_key : Option HmacFn) :
    Except MessageError WireMessage :=
  match position (fun buf => buf == msgDelim) bufs with
  | none => Except.error MessageError.missingDelimiter
  | some pos =>
    let parts := bufs.drop (pos + 2)
    if parts.length < 4 then
      Except.error (MessageError.insufficientParts parts.length 4)
    else
      match validate_hmac parts hmac_key with
      | Except.error err => Except.error err
      | Except.ok () => Except.error MessageError.missingDelimiter

/-- Modelled from the spec: the encoder (`WireMessage` serialisation is not
under `src/`).  Emits `identities..., <IDS|MSG>, signature, header,
parent_header, metadata, content, buffers...`; with a key the signature is
the lowercase hex MAC of the four JSON blobs in order, otherwise empty. -/
def encode (identities : List Frame) (hmac_key : Option HmacFn)
    (header parent_header metadata content : Frame) (buffers : List Frame) :
    List Frame :=
  let signature :=
    match hmac_key with
    | none => ([] : Frame)
    | some key => hexEncode (key (header ++ parent_header ++ metadata ++ content))
  identities ++ [msgDelim, signature, header, parent_header, metadata, content] ++ buffers

/-- Whether decoding succeeded. -/
def wire_is_ok : Except MessageError WireMessage → Bool
  | Except.ok _ => true
  | Except.error _ => false

/-- A concrete executable stand-in for the HMAC primitive, used by the
closed evaluations below. -/
def demo_hmac : HmacFn := fun data => [data.length % 256]

/-- Claim C1: decoding the frames produced by encoding a message is claimed
to succeed and return the message.  In the code, `from_buffers` returns an
error on EVERY input: each early exit returns an error, and the fall-through
after a successful HMAC validation returns `Err(MissingDelimiter)` as well.
In particular a round trip through `encode` with the absent key (signature
frame empty, verification skipped) still decodes to `MissingDelimiter`. -/
theorem wire_from_buffers_never_ok :
    (∀ (bufs : List Frame) (hmac_key : Option HmacFn),
      wire_is_ok (from_buffers bufs hmac_key) = false)
    ∧ from_buffers (encode [[1]] none [104] [112] [109] [99] []) none
        = Except.error MessageError.missingDelimiter := by
  constructor
  · intro bufs hmac_key
    unfold from_buffers
    rcases position (fun buf => buf == msgDelim) bufs with _ | pos
    · rfl
    · simp only []
      split
      · rfl
      · rcases validate_hmac (bufs.drop (pos + 2)) hmac_key with _ | u
        · rfl
        · rfl
  · rfl

/-- Claim C2: the decoder is claimed to take the frame immediately after the
`<IDS|MSG>` delimiter as the hex signature and to verify the MAC of the four
JSON blobs against it.  In the code, `bufs.drain(pos + 2..)` discards the
frame at `pos + 1` (the actual signature) unread, and `validate_hmac` pops
the LAST remaining frame — here the `content` blob `[13]` — as the
signature, MACing only the frames before it.  First conjunct: on a
well-formed message whose signature frame is the correct lowercase-hex MAC
of the four blobs, decoding fails with `InvalidHmac` carrying the CONTENT
frame (byte 13 is not an ASCII hex digit).  Second conjunct: the result
never depends on the value of the frame after the delimiter. -/
theorem wire_signature_frame_ignored :
    from_buffers
        [[1], msgDelim, hexEncode (demo_hmac ([10] ++ [11] ++ [12] ++ [13])),
          [10], [11], [12], [13]]
        (some demo_hmac)
      = Except.error (MessageError.invalidHmac [13])
    ∧ ∀ (sig sig' : Frame) (hmac_key : Option HmacFn),
        from_buffers ([1] :: msgDelim :: sig :: [[10], [11], [12], [13]]) hmac_key
          = from_buffers ([1] :: msgDelim :: sig' :: [[10], [11], [12], [13]]) hmac_key := by
  constructor
  · rfl
  · intro sig sig' hmac_key
    have hpos : ∀ (s : Frame),
        position (fun buf => buf == msgDelim)
          ([1] :: msgDelim :: s :: [[10], [11], [12], [13]]) = some 1 := by
      intro s
      simp [position, msgDelim]
    unfold from_buffers
    rw [hpos sig, hpos sig']
    rfl

/-! ## Shell router (`src/socket/shell.rs`) -/

/-- `ExecutionState` (`wire/status.rs`): the only data the Shell sends on its
`state_sender: Sender<ExecutionState>` channel for a status change. -/
inductive ExecutionState where
  | busy
  | idle
deriving DecidableEq

/-- `Status` (`wire/jupyter_message.rs`, used as `Status::Ok`). -/
inductive ReplyStatus where
  | ok
  | err
deriving DecidableEq

/-- Opaque JSON values carried in message payloads. -/
abbrev JsonValue := String

/-- `execute_request` content; only `code` is consulted by the router. -/
structure ExecuteRequest where
  code : String
deriving DecidableEq

/-- `kernel_info_request` content (empty). -/
structure KernelInfoRequest where
deriving DecidableEq

/-- `is_complete_request` content. -/
structure IsCompleteRequest where
  code : String
deriving DecidableEq

/-- `complete_request` content. -/
structure CompleteRequest where
  code : String
deriving DecidableEq

/-- The modulus of the source's `u32` integers: 2^32.  A `u32` value is
represented as a `Nat` kept below this bound; every arithmetic write is
reduced `% u32_size`, matching the wrapping `u32` addition of a release
build. -/
def u32_size : Nat := 4294967296

/-- `ExecuteReply` (`src/wire/execute_reply.rs`): status, the execution
counter, and the user-expression results.  `execution_count` is declared
`u32` on the wire; it is represented as a `Nat` that the shell only ever
fills with values below `u32_size`. -/
structure ExecuteReply where
  status : ReplyStatus
  execution_count : Nat
  user_expressions : JsonValue
deriving DecidableEq

/-- `IsComplete` status values used by the echo shell. -/
inductive IsCompleteStatus where
  | complete
  | incomplete
deriving DecidableEq

/-- `IsCompleteReply` content. -/
structure IsCompleteReply where
  status : IsCompleteStatus
  indent : String
deriving DecidableEq

/-- `LanguageInfo` as constructed by the handlers. -/
structure LanguageInfo where
  name : String
  version : String
  file_extension : String
  mimetype : String
  pygments_lexer : String
  codemirror_mode : String
  nbconvert_exporter : String
deriving DecidableEq

/-- `KernelInfoReply` content as constructed by the handlers. -/
structure KernelInfoReply where
  status : ReplyStatus
  banner : String
  debugger : Bool
  protocol_version : String
  language_info : LanguageInfo
deriving DecidableEq

/-- `CompleteReply` content. -/
structure CompleteReply where
  completion_matches : List String
  status : ReplyStatus
  cursor_start : Nat
  cursor_end : Nat
  metadata : JsonValue
deriving DecidableEq

/-- `JupyterMessage<T>`: a typed message with its own header and the parent
header (identities dropped; they do not affect the properties below). -/
structure JupyterMessage (α : Type) where
  header : JupyterHeader
  parent_header : JupyterHeader
  content : α
deriving DecidableEq

/-- The subset of the `Message` enum dispatched by `Shell::process_message`;
every other variant falls into the wildcard arm (`other_request`). -/
inductive ShellMessage where
  | kernel_info_request (msg : JupyterMessage KernelInfoRequest)
  | is_complete_request (msg : JupyterMessage IsCompleteRequest)
  | execute_request (msg : JupyterMessage ExecuteRequest)
  | complete_request (msg : JupyterMessage CompleteRequest)
  | other_request (header : JupyterHeader) (msg_type : String)
deriving DecidableEq

/-- The header of an inbound shell message. -/
def shell_header : ShellMessage → JupyterHeader
  | ShellMessage.kernel_info_request msg => msg.header
  | ShellMessage.is_complete_request msg => msg.header
  | ShellMessage.execute_request msg => msg.header
  | ShellMessage.complete_request msg => msg.header
  | ShellMessage.other_request header _ => header

/-- The typed replies the echo shell can send. -/
inductive ShellReply where
  | execute_reply (r : ExecuteReply)
  | is_complete_reply (r : IsCompleteReply)
  | kernel_info_reply (r : KernelInfoReply)
  | complete_reply (r : CompleteReply)
deriving DecidableEq

/-- What the Shell thread emits while processing one message, in emission
order.  A `status` carries exactly the payload of the
`Sender<ExecutionState>` channel: the bare state, with NO header attached
(the source comment even notes the header is not yet included).  A `reply`
is sent through `send_reply`; modelled from the spec, the reply's parent
header is the request's header. -/
inductive ShellOutput where
  | status (st : ExecutionState)
  | reply (parent : JupyterHeader) (r : ShellReply)
deriving DecidableEq

/-- Whether an output is a status emission. -/
def is_status : ShellOutput → Bool
  | ShellOutput.status _ => true
  | ShellOutput.reply _ _ => false

/-- `Error::UnsupportedMessage(Self::name())` for the wildcard arm. -/
inductive ShellError where
  | unsupported_message (socket_name : String)
deriving DecidableEq

/-- The `KernelInfoReply` built by the echo shell's `handle_info_request`:
status `Ok` and protocol version `"5.0"`. -/
def echo_info_reply : KernelInfoReply :=
  { status := ReplyStatus.ok
    banner := "Amalthea"
    debugger := false
    protocol_version := "5.0"
    language_info :=
      { name := "Echo"
        version := "1.0"
        file_extension := ".ech"
        mimetype := "text/echo"
        pygments_lexer := ""
        codemirror_mode := ""
        nbconvert_exporter := "" } }

/-- The reply-producing part of each handler; `execution_count` is the
Shell's counter BEFORE the message (the execute handler increments it first
— `self.execution_count + 1`, a `u32` addition wrapping at 2^32 — and
reports the incremented value). -/
def handler_output (execution_count : Nat) : ShellMessage → List ShellOutput
  | ShellMessage.kernel_info_request msg =>
    [ShellOutput.reply msg.header (ShellReply.kernel_info_reply echo_info_reply)]
  | ShellMessage.is_complete_request msg =>
    [ShellOutput.reply msg.header (ShellReply.is_complete_reply
      { status := IsCompleteStatus.complete, indent := "" })]
  | ShellMessage.execute_request msg =>
    [ShellOutput.reply msg.header (ShellReply.execute_reply
      { status := ReplyStatus.ok
        execution_count := (execution_count + 1) % u32_size
        user_expressions := "null" })]
  | ShellMessage.complete_request msg =>
    [ShellOutput.reply msg.header (ShellReply.complete_reply
      { completion_matches := [], status := ReplyStatus.ok
        cursor_start := 0, cursor_end := 0, metadata := "null" })]
  | ShellMessage.other_request _ _ => []

/-- The counter update of each handler: only `handle_execute_request`
touches `self.execution_count` (`self.execution_count + 1`, wrapping `u32`
addition). -/
def shell_counts_execute : ShellMessage → Bool
  | ShellMessage.execute_request _ => true
  | _ => false

/-- `Shell::process_message`: sends `ExecutionState::Busy` on the state
channel, dispatches on the message type (the wildcard arm yields
`UnsupportedMessage`), then sends `ExecutionState::Idle`.  Returns the new
execution counter, the emissions in order, and the dispatch error if any. -/
def process_message (execution_count : Nat) (msg : ShellMessage) :
    Nat × List ShellOutput × Option ShellError :=
  let count' :=
    if shell_counts_execute msg then (execution_count + 1) % u32_size
    else execution_count
  let result :=
    match msg with
    | ShellMessage.other_request _ _ => some (ShellError.unsupported_message "Shell")
    | _ => none
  (count',
   ShellOutput.status ExecutionState.busy
     :: handler_output execution_count msg ++ [ShellOutput.status ExecutionState.idle],
   result)

/-- `Shell::listen` over a list of inbound messages, starting from counter
`execution_count` (`Shell::new` starts it at 0). -/
def run_shell (execution_count : Nat) : List ShellMessage → Nat × List ShellOutput
  | [] => (execution_count, [])
  | msg :: rest =>
    let r := process_message execution_count msg
    let r' := run_shell r.1 rest
    (r'.1, r.2.1 ++ r'.2)

/-- The `execution_count` values reported by the execute replies of a trace,
in order. -/
def exec_counts : List ShellOutput → List Nat
  | [] => []
  | ShellOutput.reply _ (ShellReply.execute_reply r) :: rest => r.execution_count :: exec_counts rest
  | _ :: rest => exec_counts rest

/-- The number of execute requests in a message list. -/
def count_exec (msgs : List ShellMessage) : Nat :=
  (msgs.filter shell_counts_execute).length

/-- Demo headers and messages for the closed shell evaluations. -/
def hdr_parent : JupyterHeader :=
  { msg_id := "", session := "", username := "", date := "", msg_type := "", version := "" }

def hdr_m1 : JupyterHeader :=
  { msg_id := "M1", session := "s", username := "u", date := "d"
    msg_type := "kernel_info_request", version := "5.3" }

def hdr_m2 : JupyterHeader :=
  { msg_id := "M2", session := "s", username := "u", date := "d"
    msg_type := "execute_request", version := "5.3" }

def demo_info_msg : ShellMessage :=
  ShellMessage.kernel_info_request
    { header := hdr_m1, parent_header := hdr_parent, content := {} }

def demo_exec_msg : ShellMessage :=
  ShellMessage.execute_request
    { header := hdr_m2, parent_header := hdr_parent, content := { code := "1+1" } }

/-- Claim C3 (amended): `process_message` emits `Busy` strictly before the
handler dispatch and `Idle` strictly after it returns, for every inbound
message including unsupported ones, and the handler itself never emits a
status. -/
theorem shell_busy_idle_bracketing :
    ∀ (execution_count : Nat) (msg : ShellMessage),
      (process_message execution_count msg).2.1
        = ShellOutput.status ExecutionState.busy
            :: handler_output execution_count msg ++ [ShellOutput.status ExecutionState.idle]
      ∧ (handler_output execution_count msg).filter is_status = [] := by
  intro execution_count msg
  refine ⟨rfl, ?_⟩
  cases msg <;> rfl

/-- Claim C3 (counterexample): the status emissions are NOT tagged with the
request's header.  The Shell's state channel has element type
`ExecutionState`, so the busy/idle values sent for two requests with
different headers are the very same values; consequently no tagging function
can recover different headers from them, contradicting the claim that both
status messages are tagged with the parent header of their request.  (The
source comment in `process_message` itself notes that the header is not yet
included.) -/
theorem shell_status_untagged :
    (process_message 0 demo_info_msg).2.1.filter is_status
        = (process_message 0 demo_exec_msg).2.1.filter is_status
    ∧ shell_header demo_info_msg ≠ shell_header demo_exec_msg
    ∧ ¬ ∃ tag : ShellOutput → JupyterHeader,
        (tag (ShellOutput.status ExecutionState.busy) = shell_header demo_info_msg
          ∧ tag (ShellOutput.status ExecutionState.busy) = shell_header demo_exec_msg) := by
  refine ⟨rfl, by decide, ?_⟩
  rintro ⟨tag, h1, h2⟩
  exact (by decide : shell_header demo_info_msg ≠ shell_header demo_exec_msg)
    (h1.symm.trans h2)

/-! ## The ark shell handler (`crates/ark/src/shell.rs`) -/

/-- `KernelInfo` (defined in `crates/ark/src/kernel.rs`, outside the sources
considered here); only the fields read by `handle_info_request` are kept. -/
structure KernelInfo where
  version : String
  banner : String
deriving DecidableEq

/-- The `KernelInfoReply` built by the ark `ShellHandler`'s
`handle_info_request`: status `Ok` and protocol version `"5.3"`. -/
def ark_handle_info_request (kernel_info : KernelInfo) : KernelInfoReply :=
  { status := ReplyStatus.ok
    banner := kernel_info.banner
    debugger := false
    protocol_version := "5.3"
    language_info :=
      { name := "R"
        version := kernel_info.version
        file_extension := ".R"
        mimetype := "text/r"
        pygments_lexer := ""
        codemirror_mode := ""
        nbconvert_exporter := "" } }

/-- Claim C9 (amended): the ark `ShellHandler` answers every
`kernel_info_request` with status ok and protocol version `"5.3"`, while the
echo Shell router of `src/socket/shell.rs` answers itself with status ok but
protocol version `"5.0"`, tagging the reply with the request's header as
parent. -/
theorem kernel_info_reply_contents :
    ∀ (kernel_info : KernelInfo),
      (ark_handle_info_request kernel_info).status = ReplyStatus.ok
      ∧ (ark_handle_info_request kernel_info).protocol_version = "5.3"
      ∧ ∀ (execution_count : Nat) (req : JupyterMessage KernelInfoRequest),
          (process_message execution_count (ShellMessage.kernel_info_request req)).2.1
            = [ShellOutput.status ExecutionState.busy,
               ShellOutput.reply req.header (ShellReply.kernel_info_reply echo_info_reply),
               ShellOutput.status ExecutionState.idle]
          ∧ echo_info_reply.status = ReplyStatus.ok
          ∧ echo_info_reply.protocol_version = "5.0" := by
  intro kernel_info
  exact ⟨rfl, rfl, fun _ _ => ⟨rfl, rfl, rfl⟩⟩

/-- Claim C9 (counterexample): the kernel-info reply produced by the Shell
router of `src/socket/shell.rs` for a concrete request carries protocol
version `"5.0"`, not `"5.3"`. -/
theorem echo_kernel_info_protocol_version :
    echo_info_reply.protocol_version = "5.0"
    ∧ ("5.0" : String) ≠ "5.3"
    ∧ (process_message 0 demo_info_msg).2.1
        = [ShellOutput.status ExecutionState.busy,
           ShellOutput.reply hdr_m1 (ShellReply.kernel_info_reply echo_info_reply),
           ShellOutput.status ExecutionState.idle] := by
  exact ⟨rfl, by decide, rfl⟩

/-- `exec_counts` distributes over concatenated traces. -/
theorem exec_counts_append :
    ∀ (a b : List ShellOutput), exec_counts (a ++ b) = exec_counts a ++ exec_counts b := by
  intro a b
  induction a with
  | nil => rfl
  | cons o rest ih =>
    cases o with
    | status st => simpa [exec_counts] using ih
    | reply parent r =>
      cases r <;> simp [exec_counts, ih]

/-- Congruence: two `range'` segments with congruent starts have the same
image under reduction `% u32_size`. -/
theorem map_mod_range' :
    ∀ (n a b : Nat), a % u32_size = b % u32_size →
      (List.range' a n).map (fun i => i % u32_size)
        = (List.range' b n).map (fun i => i % u32_size) := by
  intro n
  induction n with
  | zero => intro a b h; rfl
  | succ k ih =>
    intro a b h
    rw [List.range'_succ, List.range'_succ, List.map_cons, List.map_cons]
    show a % u32_size :: _ = b % u32_size :: _
    rw [h, ih (a + 1) (b + 1) (by unfold u32_size at h ⊢; omega)]

/-- Reduction `% u32_size` is the identity on a `range'` segment that stays
below the modulus. -/
theorem map_mod_range'_id :
    ∀ (n s : Nat), s + n ≤ u32_size →
      (List.range' s n).map (fun i => i % u32_size) = List.range' s n := by
  intro n
  induction n with
  | zero => intro s _; rfl
  | succ k ih =>
    intro s h
    rw [List.range'_succ, List.map_cons]
    show s % u32_size :: _ = s :: _
    rw [Nat.mod_eq_of_lt (Nat.lt_of_lt_of_le (by omega) h), ih (s + 1) (by omega)]

/-- Per-step characterisation of the shell execution counter: starting from
counter `c`, the execute replies report `(c + 1) % 2^32, (c + 2) % 2^32, …`
and the final counter is `(c + k) % 2^32` after `k ≥ 1` execute requests. -/
theorem run_shell_exec_counts :
    ∀ (msgs : List ShellMessage) (c : Nat),
      exec_counts (run_shell c msgs).2
        = (List.range' (c + 1) (count_exec msgs)).map (fun i => i % u32_size)
      ∧ (run_shell c msgs).1
        = if count_exec msgs = 0 then c else (c + count_exec msgs) % u32_size := by
  intro msgs
  induction msgs with
  | nil => intro c; exact ⟨rfl, rfl⟩
  | cons m rest ih =>
    intro c
    cases m with
    | execute_request msg =>
      have h1 := (ih ((c + 1) % u32_size)).1
      have h2 := (ih ((c + 1) % u32_size)).2
      have hc : count_exec (ShellMessage.execute_request msg :: rest)
          = count_exec rest + 1 := rfl
      refine ⟨?_, ?_⟩
      · show exec_counts ((process_message c (ShellMessage.execute_request msg)).2.1
            ++ (run_shell ((c + 1) % u32_size) rest).2) = _
        rw [exec_counts_append, h1, hc, List.range'_succ, List.map_cons,
          map_mod_range' (count_exec rest) ((c + 1) % u32_size + 1) (c + 1 + 1)
            (by unfold u32_size; omega)]
        rfl
      · show (run_shell ((c + 1) % u32_size) rest).1 = _
        rw [h2, hc]
        by_cases hn : count_exec rest = 0
        · rw [if_pos hn, if_neg (show ¬(count_exec rest + 1 = 0) by omega), hn]
        · rw [if_neg hn, if_neg (show ¬(count_exec rest + 1 = 0) by omega)]
          unfold u32_size
          omega
    | kernel_info_request msg =>
      have hc : count_exec (ShellMessage.kernel_info_request msg :: rest)
          = count_exec rest := rfl
      refine ⟨?_, ?_⟩
      · show exec_counts ((process_message c (ShellMessage.kernel_info_request msg)).2.1
            ++ (run_shell c rest).2) = _
        rw [exec_counts_append, (ih c).1, hc]
        rfl
      · show (run_shell c rest).1 = _
        rw [(ih c).2, hc]
    | is_complete_request msg =>
      have hc : count_exec (ShellMessage.is_complete_request msg :: rest)
          = count_exec rest := rfl
      refine ⟨?_, ?_⟩
      · show exec_counts ((process_message c (ShellMessage.is_complete_request msg)).2.1
            ++ (run_shell c rest).2) = _
        rw [exec_counts_append, (ih c).1, hc]
        rfl
      · show (run_shell c rest).1 = _
        rw [(ih c).2, hc]
    | complete_request msg =>
      have hc : count_exec (ShellMessage.complete_request msg :: rest)
          = count_exec rest := rfl
      refine ⟨?_, ?_⟩
      · show exec_counts ((process_message c (ShellMessage.complete_request msg)).2.1
            ++ (run_shell c rest).2) = _
        rw [exec_counts_append, (ih c).1, hc]
        rfl
      · show (run_shell c rest).1 = _
        rw [(ih c).2, hc]
    | other_request header msg_type =>
      have hc : count_exec (ShellMessage.other_request header msg_type :: rest)
          = count_exec rest := rfl
      refine ⟨?_, ?_⟩
      · show exec_counts ((process_message c (ShellMessage.other_request header msg_type)).2.1
            ++ (run_shell c rest).2) = _
        rw [exec_counts_append, (ih c).1, hc]
        rfl
      · show (run_shell c rest).1 = _
        rw [(ih c).2, hc]

/-- Claim C10 (amended): the counter starts at 0 (`Shell::new`) and is a
`u32`: each execute request sets it to `(old + 1) % 2^32` and the reply
reports that value, while no other message type changes it (second
conjunct).  From 0 the execute replies therefore report
`1 % 2^32, 2 % 2^32, …` (first conjunct), which are exactly the strictly
increasing values 1, 2, …, k whenever the trace carries fewer than 2^32
execute requests (third conjunct) — and not beyond, see
`execution_counts_wrap_at_u32`. -/
theorem execution_count_wrapped :
    (∀ (msgs : List ShellMessage),
      exec_counts (run_shell 0 msgs).2
        = (List.range' 1 (count_exec msgs)).map (fun i => i % u32_size)
      ∧ (run_shell 0 msgs).1
        = if count_exec msgs = 0 then 0 else count_exec msgs % u32_size)
    ∧ (∀ (c : Nat) (m : ShellMessage),
      (process_message c m).1
        = if shell_counts_execute m then (c + 1) % u32_size else c)
    ∧ (∀ (msgs : List ShellMessage), count_exec msgs < u32_size →
      exec_counts (run_shell 0 msgs).2 = List.range' 1 (count_exec msgs)) := by
  refine ⟨?_, ?_, ?_⟩
  · intro msgs
    have h1 := (run_shell_exec_counts msgs 0).1
    have h2 := (run_shell_exec_counts msgs 0).2
    rw [Nat.zero_add] at h1
    constructor
    · exact h1
    · rw [h2]
      by_cases hn : count_exec msgs = 0
      · rw [if_pos hn, if_pos hn]
      · rw [if_neg hn, if_neg hn, Nat.zero_add]
  · intro c m
    rfl
  · intro msgs h
    have h1 := (run_shell_exec_counts msgs 0).1
    rw [Nat.zero_add] at h1
    rw [h1, map_mod_range'_id (count_exec msgs) 1 (by omega)]

/-- Witness for `execution_count_wrapped` at a concrete two-execute trace. -/
theorem execution_count_wrapped_witness :
    exec_counts (run_shell 0 [demo_exec_msg, demo_exec_msg]).2
      = List.range' 1 (count_exec [demo_exec_msg, demo_exec_msg]) := by
  exact execution_count_wrapped.2.2 [demo_exec_msg, demo_exec_msg] (by decide)

/-- Every message of a replicated execute trace counts as an execute. -/
theorem count_exec_replicate :
    ∀ (n : Nat), count_exec (List.replicate n demo_exec_msg) = n := by
  intro n
  induction n with
  | zero => rfl
  | succ k ih =>
    have hc : count_exec (demo_exec_msg :: List.replicate k demo_exec_msg)
        = count_exec (List.replicate k demo_exec_msg) + 1 := rfl
    rw [List.replicate_succ, hc, ih]

/-- A trace of 2^32 execute requests. -/
def wrap_trace : List ShellMessage := List.replicate u32_size demo_exec_msg

/-- Claim C10 (counterexample): the source counter is a `u32`, so the
increment wraps at 2^32 and the reported counts are NOT strictly increasing
for every trace.  First and second conjuncts: from counter 2^32 − 1 (as
reached after 2^32 − 1 execute requests) the next execute reply reports 0,
not the unbounded 2^32.  Third and fourth conjuncts: over the explicit
trace of 2^32 execute requests the reported counts are
`1 % 2^32, …, 2^32 % 2^32` (so the last two are 2^32 − 1 followed by 0) and
the count sequence is not a strictly increasing chain. -/
theorem execution_counts_wrap_at_u32 :
    exec_counts (process_message (u32_size - 1) demo_exec_msg).2.1 = [0]
    ∧ (0 : Nat) ≠ (u32_size - 1) + 1
    ∧ exec_counts (run_shell 0 wrap_trace).2
        = (List.range' 1 u32_size).map (fun i => i % u32_size)
    ∧ ¬ List.Chain' (fun a b => a < b) (exec_counts (run_shell 0 wrap_trace).2) := by
  have hchar : exec_counts (run_shell 0 wrap_trace).2
      = (List.range' 1 u32_size).map (fun i => i % u32_size) := by
    have h := (run_shell_exec_counts wrap_trace 0).1
    rw [Nat.zero_add,
      show count_exec wrap_trace = u32_size from count_exec_replicate u32_size] at h
    exact h
  refine ⟨by decide, by decide, hchar, ?_⟩
  rw [hchar]
  intro hch
  have hlen : ((List.range' 1 u32_size).map (fun i => i % u32_size)).length
      = u32_size := by
    rw [List.length_map, List.length_range']
  have hval : ∀ (i : Nat)
      (h : i < ((List.range' 1 u32_size).map (fun i => i % u32_size)).length),
      ((List.range' 1 u32_size).map (fun i => i % u32_size)).get ⟨i, h⟩
        = (1 + i) % u32_size := by
    intro i h
    rw [List.get_eq_getElem, List.getElem_map, List.getElem_range'_1]
  have hget := List.chain'_iff_get.mp hch (u32_size - 2) (by rw [hlen]; decide)
  rw [hval, hval] at hget
  exact absurd hget (by decide)

/-! ## Comm manager (`crates/amalthea/src/comm/comm_manager.rs`) -/

/-- `CommInitiator` (`socket/comm.rs`). -/
inductive CommInitiator where
  | frontEnd
  | backEnd
deriving DecidableEq

/-- `CommSocket`, restricted to its identity fields; its two channel
endpoints are modelled by the manager's action trace (`forward`) and by the
`dead` list of comms whose incoming receiver has been dropped. -/
structure CommSocket where
  comm_id : String
  comm_name : String
  initiator : CommInitiator
deriving DecidableEq

/-- `CommMsg` (`comm/comm_channel.rs`), the variants handled by the
manager's outgoing-message match (`ReverseRpc` has no arm there). -/
inductive CommMsg where
  | rpc (id : String) (payload : JsonValue)
  | data (payload : JsonValue)
  | close
deriving DecidableEq

/-- `CommManagerEvent` (`comm/event.rs`), the variants handled by
`execution_thread`. -/
inductive CommManagerEvent where
  | opened (socket : CommSocket) (val : JsonValue)
  | message (comm_id : String) (msg : CommMsg)
  | pendingRpc (header : JupyterHeader)
  | closed (comm_id : String)
deriving DecidableEq

/-- `CommShellEvent` (`comm/event.rs`). -/
inductive CommShellEvent where
  | added (comm_id : String) (comm_name : String)
  | removed (comm_id : String)
deriving DecidableEq

/-- The IOPub messages produced by the comm manager
(`socket/iopub.rs` variants used in `execution_thread`). -/
inductive IOPubMessage where
  | commOpen (comm_id : String) (target_name : String) (payload : JsonValue)
  | commMsgEvent (comm_id : String) (payload : JsonValue)
  | commMsgReply (parent : JupyterHeader) (comm_id : String) (payload : JsonValue)
  | commMsgRequest (comm_id : String) (payload : JsonValue)
  | commClose (comm_id : String)
deriving DecidableEq

/-- One observable action of the comm manager: a send on `comm_shell_tx`, a
send on `iopub_tx`, a forward into a comm's `incoming_tx`, or a logged
warning. -/
inductive ManagerAction where
  | shell (e : CommShellEvent)
  | iopub (m : IOPubMessage)
  | forward (comm_id : String) (msg : CommMsg)
  | warnUnknownComm (comm_id : String)
  | warnUnknownCommClose (comm_id : String)
deriving DecidableEq

/-- The comm manager's mutable state: the ordered `open_comms` vector and
the `pending_rpcs` hash map (represented as an association list whose keys
stay distinct under the operations below). -/
structure CommManagerState where
  open_comms : List CommSocket
  pending_rpcs : List (String × JupyterHeader)
deriving DecidableEq

/-- `CommManager::new`: no open comms, empty pending-RPC table. -/
def init_manager : CommManagerState := { open_comms := [], pending_rpcs := [] }

/-- `HashMap::insert`: replaces the value when the key is present, appends a
new binding otherwise. -/
def hm_insert (k : String) (v : JupyterHeader) :
    List (String × JupyterHeader) → List (String × JupyterHeader)
  | [] => [(k, v)]
  | p :: rest => if p.1 == k then (k, v) :: rest else p :: hm_insert k v rest

/-- `HashMap::remove`: returns the removed value (if any) and the remaining
bindings. -/
def hm_remove (k : String) :
    List (String × JupyterHeader) → Option JupyterHeader × List (String × JupyterHeader)
  | [] => (none, [])
  | p :: rest =>
    if p.1 == k then (some p.2, rest)
    else
      let r := hm_remove k rest
      (r.1, p :: r.2)

/-- Whether the table has a binding for `k`. -/
def hm_mem (k : String) (m : List (String × JupyterHeader)) : Bool :=
  m.any (fun p => p.1 == k)

/-- One input observed by the manager's `Select`: either a
`CommManagerEvent` from `comm_event_rx`, or a message arriving on the
outgoing channel of the open comm at `index`. -/
inductive ManagerInput where
  | event (e : CommManagerEvent)
  | fromComm (index : Nat) (msg : CommMsg)
deriving DecidableEq

/-- The result of one `execution_thread` iteration.  `panicked` records an
`unwrap()` of a failed channel send: the thread dies and processes nothing
further.  (The sends on `iopub_tx` and `comm_shell_tx` are also unwrapped in
the source; their receivers live as long as the kernel, so only the send
into a comm's `incoming_tx` — whose receiver the comm owns — is modelled as
fallible, via the `dead` list.) -/
structure StepResult where
  state : CommManagerState
  actions : List ManagerAction
  panicked : Bool
deriving DecidableEq

/-- `CommManager::execution_thread`, one iteration. -/
def execution_thread (dead : List String) (s : CommManagerState)
    (input : ManagerInput) : StepResult :=
  match input with
  | ManagerInput.event e =>
    match e with
    | CommManagerEvent.opened socket val =>
      { state := { s with open_comms := s.open_comms ++ [socket] }
        actions :=
          ManagerAction.shell (CommShellEvent.added socket.comm_id socket.comm_name)
            :: (if socket.initiator = CommInitiator.backEnd then
                  [ManagerAction.iopub
                    (IOPubMessage.commOpen socket.comm_id socket.comm_name val)]
                else [])
        panicked := false }
    | CommManagerEvent.pendingRpc header =>
      { state := { s with pending_rpcs := hm_insert header.msg_id header s.pending_rpcs }
        actions := []
        panicked := false }
    | CommManagerEvent.message comm_id msg =>
      match position (fun c => c.comm_id == comm_id) s.open_comms with
      | some _ =>
        if dead.contains comm_id then
          { state := s, actions := [], panicked := true }
        else
          { state := s, actions := [ManagerAction.forward comm_id msg], panicked := false }
      | none =>
        { state := s, actions := [ManagerAction.warnUnknownComm comm_id], panicked := false }
    | CommManagerEvent.closed comm_id =>
      match position (fun c => c.comm_id == comm_id) s.open_comms with
      | some index =>
        { state := { s with open_comms := s.open_comms.eraseIdx index }
          actions := [ManagerAction.shell (CommShellEvent.removed comm_id)]
          panicked := false }
      | none =>
        { state := s, actions := [ManagerAction.warnUnknownCommClose comm_id]
          panicked := false }
  | ManagerInput.fromComm index msg =>
    match s.open_comms[index]? with
    | none => { state := s, actions := [], panicked := false }
    | some comm =>
      match msg with
      | CommMsg.data payload =>
        { state := s
          actions := [ManagerAction.iopub (IOPubMessage.commMsgEvent comm.comm_id payload)]
          panicked := false }
      | CommMsg.rpc id payload =>
        match hm_remove id s.pending_rpcs with
        | (some header, rest) =>
          { state := { s with pending_rpcs := rest }
            actions := [ManagerAction.iopub
              (IOPubMessage.commMsgReply header comm.comm_id payload)]
            panicked := false }
        | (none, _) =>
          { state := s
            actions := [ManagerAction.iopub
              (IOPubMessage.commMsgRequest comm.comm_id payload)]
            panicked := false }
      | CommMsg.close =>
        { state := s
          actions := [ManagerAction.iopub (IOPubMessage.commClose comm.comm_id)]
          panicked := false }

/-- The manager loop: processes inputs in order, stopping (with the flag
set) if an iteration panics. -/
def run_manager (dead : List String) (s : CommManagerState) :
    List ManagerInput → CommManagerState × List ManagerAction × Bool
  | [] => (s, [], false)
  | input :: rest =>
    let r := execution_thread dead s input
    if r.panicked then (r.state, r.actions, true)
    else
      let r' := run_manager dead r.state rest
      (r'.1, r.actions ++ r'.2.1, r'.2.2)

/-- Number of `open_comms` entries carrying a given id. -/
def entry_count (comm_id : String) (s : CommManagerState) : Nat :=
  (s.open_comms.filter (fun c => c.comm_id == comm_id)).length

/-- The entry count predicted from the input sequence alone: `Opened(id)`
always adds one, `Closed(id)` removes one when at least one is present and
is otherwise ignored. -/
def clamp_count (comm_id : String) : List ManagerInput → Nat → Nat
  | [], n => n
  | ManagerInput.event (CommManagerEvent.opened socket _) :: rest, n =>
    clamp_count comm_id rest (if socket.comm_id == comm_id then n + 1 else n)
  | ManagerInput.event (CommManagerEvent.closed cid) :: rest, n =>
    clamp_count comm_id rest (if cid == comm_id then n - 1 else n)
  | _ :: rest, n => clamp_count comm_id rest n

/-- With no dead comm, an iteration never panics. -/
theorem execution_thread_no_dead_no_panic :
    ∀ (s : CommManagerState) (input : ManagerInput),
      (execution_thread [] s input).panicked = false := by
  intro s input
  cases input with
  | event e =>
    cases e with
    | opened socket val => rfl
    | pendingRpc header => rfl
    | message comm_id msg =>
      dsimp only [execution_thread]
      cases hp : position (fun c => c.comm_id == comm_id) s.open_comms with
      | none => rfl
      | some i => rfl
    | closed comm_id =>
      dsimp only [execution_thread]
      cases hp : position (fun c => c.comm_id == comm_id) s.open_comms with
      | none => rfl
      | some i => rfl
  | fromComm index msg =>
    dsimp only [execution_thread]
    cases hp : s.open_comms[index]? with
    | none => rfl
    | some comm =>
      cases msg with
      | data payload => rfl
      | rpc id payload =>
        cases hr : hm_remove id s.pending_rpcs with
        | mk found rest => cases found <;> simp [hr]
      | close => rfl

/-- If `position` finds nothing, no element satisfies the predicate. -/
theorem position_none_filter_nil {α : Type} (p : α → Bool) :
    ∀ (l : List α), position p l = none → l.filter p = [] := by
  intro l
  induction l with
  | nil => intro _; rfl
  | cons a rest ih =>
    intro h
    by_cases ha : p a
    · simp [position, ha] at h
    · simp only [position, ha, if_neg] at h
      simp only [List.filter, ha]
      exact ih (by rcases hp : position p rest with _ | j <;> simp [hp] at h ⊢)

/-- Erasing the element found by `position` removes exactly one element from
the filtered sublist for the same predicate. -/
theorem filter_length_eraseIdx_self {α : Type} (p : α → Bool) :
    ∀ (l : List α) (i : Nat), position p l = some i →
      ((l.eraseIdx i).filter p).length + 1 = (l.filter p).length := by
  intro l
  induction l with
  | nil => intro i h; simp [position] at h
  | cons a rest ih =>
    intro i h
    by_cases ha : p a
    · simp [position, ha] at h
      subst h
      simp [List.eraseIdx, List.filter, ha]
    · simp only [position] at h
      rw [if_neg ha] at h
      rcases hp : position p rest with _ | j
      · rw [hp] at h; simp at h
      · rw [hp] at h
        simp only [Option.map_some'] at h
        have hi : i = j + 1 := (Option.some.injEq _ _ ▸ h).symm
        subst hi
        simp only [List.eraseIdx, List.filter, ha]
        exact ih j hp

/-- Erasing the element found by `position p` does not change the sublist
filtered by a predicate `q` that no `p`-element satisfies. -/
theorem filter_eraseIdx_position_other {α : Type} (p q : α → Bool)
    (hpq : ∀ c, p c = true → q c = false) :
    ∀ (l : List α) (i : Nat), position p l = some i →
      (l.eraseIdx i).filter q = l.filter q := by
  intro l
  induction l with
  | nil => intro i h; simp [position] at h
  | cons a rest ih =>
    intro i h
    by_cases ha : p a
    · simp [position, ha] at h
      subst h
      simp only [List.eraseIdx, List.filter, hpq a ha]
    · simp only [position] at h
      rw [if_neg ha] at h
      rcases hp : position p rest with _ | j
      · rw [hp] at h; simp at h
      · rw [hp] at h
        simp only [Option.map_some'] at h
        have hi : i = j + 1 := (Option.some.injEq _ _ ▸ h).symm
        subst hi
        simp only [List.eraseIdx, List.filter]
        rw [ih j hp]

/-- Claim C4 (amended): for every input sequence, the number of open-comm
entries carrying a given id equals the fold in which `Opened(id)` always
appends an entry (duplicates accumulate: the source pushes without checking)
and `Closed(id)` removes the first matching entry when one is present and is
otherwise ignored.  At-most-one-entry therefore holds only for sequences
that never open an id that is already present. -/
theorem comm_entry_count_clamped :
    ∀ (inputs : List ManagerInput) (s : CommManagerState) (comm_id : String),
      entry_count comm_id (run_manager [] s inputs).1
        = clamp_count comm_id inputs (entry_count comm_id s) := by
  intro inputs
  induction inputs with
  | nil => intro s comm_id; rfl
  | cons input rest ih =>
    intro s comm_id
    have hnp := execution_thread_no_dead_no_panic s input
    show entry_count comm_id
        (if (execution_thread [] s input).panicked then _ else _ : _ × _ × _).1 = _
    rw [if_neg (by rw [hnp]; exact Bool.false_ne_true)]
    cases input with
    | event e =>
      cases e with
      | opened socket val =>
        rw [ih]
        show clamp_count comm_id rest
            (entry_count comm_id { s with open_comms := s.open_comms ++ [socket] }) = _
        have : entry_count comm_id { s with open_comms := s.open_comms ++ [socket] }
            = if socket.comm_id == comm_id
              then entry_count comm_id s + 1 else entry_count comm_id s := by
          by_cases hid : socket.comm_id == comm_id
          · simp [entry_count, List.filter_append, List.filter, hid]
          · simp [entry_count, List.filter_append, List.filter, hid]
        rw [this]
        rfl
      | pendingRpc header =>
        rw [ih]
        rfl
      | message comm_id' msg =>
        dsimp only [execution_thread]
        cases hp : position (fun c => c.comm_id == comm_id') s.open_comms with
        | none => rw [ih]; rfl
        | some i => rw [ih]; rfl
      | closed comm_id' =>
        dsimp only [execution_thread]
        cases hp : position (fun c => c.comm_id == comm_id') s.open_comms with
        | none =>
          rw [ih]
          show clamp_count comm_id rest (entry_count comm_id s)
              = clamp_count comm_id rest
                  (if comm_id' == comm_id then entry_count comm_id s - 1
                   else entry_count comm_id s)
          by_cases hid : comm_id' == comm_id
          · have heq : comm_id' = comm_id := by simpa using hid
            have hzero : entry_count comm_id s = 0 := by
              have hnil := position_none_filter_nil (fun c => c.comm_id == comm_id')
                s.open_comms hp
              rw [heq] at hnil
              simp [entry_count, hnil]
            rw [hzero, if_pos hid]
          · rw [if_neg (by simpa using hid)]
        | some i =>
          rw [ih]
          show clamp_count comm_id rest
              (entry_count comm_id { s with open_comms := s.open_comms.eraseIdx i })
              = clamp_count comm_id rest
                  (if comm_id' == comm_id then entry_count comm_id s - 1
                   else entry_count comm_id s)
          by_cases hid : comm_id' == comm_id
          · have hEq : comm_id' = comm_id := by simpa using hid
            have hlen := filter_length_eraseIdx_self
              (fun c => c.comm_id == comm_id') s.open_comms i hp
            rw [hEq] at hlen
            have hstep : entry_count comm_id { s with open_comms := s.open_comms.eraseIdx i }
                = entry_count comm_id s - 1 := by
              simp only [entry_count] at hlen ⊢
              omega
            rw [hstep, if_pos hid]
          · have hne : comm_id' ≠ comm_id := by simpa using hid
            have hother := filter_eraseIdx_position_other
              (fun c => c.comm_id == comm_id') (fun c => c.comm_id == comm_id)
              (by
                intro c hc
                have : c.comm_id = comm_id' := by simpa using hc
                simp [this, hne])
              s.open_comms i hp
            have : entry_count comm_id { s with open_comms := s.open_comms.eraseIdx i }
                = entry_count comm_id s := by
              simp [entry_count, hother]
            rw [this, if_neg (by simpa using hid)]
    | fromComm index msg =>
      dsimp only [execution_thread]
      cases hp : s.open_comms[index]? with
      | none => rw [ih]; rfl
      | some comm =>
        cases msg with
        | data payload => rw [ih]; rfl
        | rpc id payload =>
          cases hr : hm_remove id s.pending_rpcs with
          | mk found rem =>
            cases found with
            | none => rw [ih]; simp only [hr]; rfl
            | some header => rw [ih]; simp only [hr]; rfl
        | close => rw [ih]; rfl

def sock_c1 : CommSocket :=
  { comm_id := "c1", comm_name := "x", initiator := CommInitiator.frontEnd }

/-- Claim C4 (counterexample): processing `Opened(c1)` twice leaves TWO
entries for `c1` in the manager's set (`execution_thread` pushes the socket
without checking for an existing entry), refuting both the at-most-one-entry
part and the presence-equals-difference part of the claim. -/
theorem comm_duplicate_open_two_entries :
    entry_count "c1" (run_manager [] init_manager
        [ManagerInput.event (CommManagerEvent.opened sock_c1 "v"),
         ManagerInput.event (CommManagerEvent.opened sock_c1 "v")]).1 = 2
    ∧ ¬ entry_count "c1" (run_manager [] init_manager
        [ManagerInput.event (CommManagerEvent.opened sock_c1 "v"),
         ManagerInput.event (CommManagerEvent.opened sock_c1 "v")]).1 ≤ 1 := by
  exact ⟨rfl, by decide⟩

/-- The pending-table contribution of one input: 1 for a `PendingRpc` whose
`msg_id` is NOT already a key of the table (a duplicate overwrites in place),
0 otherwise. -/
def fresh_add (s : CommManagerState) : ManagerInput → Nat
  | ManagerInput.event (CommManagerEvent.pendingRpc header) =>
    if hm_mem header.msg_id s.pending_rpcs then 0 else 1
  | _ => 0

/-- The pending-table consumption of one input: 1 for a comm `Rpc` whose id
is a key of the table (and whose comm index is valid), 0 otherwise. -/
def consumed_add (s : CommManagerState) : ManagerInput → Nat
  | ManagerInput.fromComm index (CommMsg.rpc id _) =>
    match s.open_comms[index]? with
    | some _ => if hm_mem id s.pending_rpcs then 1 else 0
    | none => 0
  | _ => 0

/-- Total count of fresh `PendingRpc` insertions along a run. -/
def count_fresh_pending (s : CommManagerState) : List ManagerInput → Nat
  | [] => 0
  | input :: rest =>
    fresh_add s input + count_fresh_pending (execution_thread [] s input).state rest

/-- Total count of comm `Rpc` replies that found (and removed) their id. -/
def count_consumed_rpc (s : CommManagerState) : List ManagerInput → Nat
  | [] => 0
  | input :: rest =>
    consumed_add s input + count_consumed_rpc (execution_thread [] s input).state rest

/-- `HashMap::insert` grows the table exactly when the key is fresh. -/
theorem hm_insert_length (k : String) (v : JupyterHeader) :
    ∀ (m : List (String × JupyterHeader)),
      (hm_insert k v m).length = if hm_mem k m then m.length else m.length + 1 := by
  intro m
  induction m with
  | nil => rfl
  | cons p rest ih =>
    by_cases hk : p.1 == k
    · simp [hm_insert, hm_mem, hk, List.any_cons]
    · have hk' : p.1 ≠ k := by simpa using hk
      simp only [hm_insert, hm_mem, List.any_cons] at ih ⊢
      simp [hk, ih]
      by_cases hmem : rest.any (fun p => p.1 == k) <;> simp [hmem, hk']

/-- Removing an absent key leaves the table untouched. -/
theorem hm_remove_of_not_mem (k : String) :
    ∀ (m : List (String × JupyterHeader)),
      hm_mem k m = false → hm_remove k m = (none, m) := by
  intro m
  induction m with
  | nil => intro _; rfl
  | cons p rest ih =>
    intro h
    simp only [hm_mem, List.any_cons, Bool.or_eq_false_iff] at h
    have hrest := ih (by simpa [hm_mem] using h.2)
    simp [hm_remove, h.1, hrest]

/-- Removing a present key returns its value and shrinks the table by one. -/
theorem hm_remove_of_mem (k : String) :
    ∀ (m : List (String × JupyterHeader)),
      hm_mem k m = true →
      (hm_remove k m).1.isSome = true ∧ (hm_remove k m).2.length + 1 = m.length := by
  intro m
  induction m with
  | nil => intro h; simp [hm_mem] at h
  | cons p rest ih =>
    intro h
    by_cases hk : p.1 == k
    · simp [hm_remove, hk]
    · simp only [hm_mem, List.any_cons, hk, Bool.false_or] at h
      have hrest := ih (by simpa [hm_mem] using h)
      simp only [hm_remove, hk]
      simp only [Bool.false_eq_true, if_false, List.length_cons]
      exact ⟨hrest.1, by omega⟩

/-- One iteration's effect on the pending table's size. -/
theorem pending_step :
    ∀ (s : CommManagerState) (input : ManagerInput),
      (execution_thread [] s input).state.pending_rpcs.length + consumed_add s input
        = s.pending_rpcs.length + fresh_add s input := by
  intro s input
  cases input with
  | event e =>
    cases e with
    | opened socket val => rfl
    | pendingRpc header =>
      show (hm_insert header.msg_id header s.pending_rpcs).length + 0
          = s.pending_rpcs.length
            + (if hm_mem header.msg_id s.pending_rpcs then 0 else 1)
      rw [hm_insert_length]
      by_cases hmem : hm_mem header.msg_id s.pending_rpcs
      · simp [hmem]
      · simp [hmem]
    | message comm_id msg =>
      dsimp only [execution_thread]
      cases hp : position (fun c => c.comm_id == comm_id) s.open_comms with
      | none => rfl
      | some i => rfl
    | closed comm_id =>
      dsimp only [execution_thread]
      cases hp : position (fun c => c.comm_id == comm_id) s.open_comms with
      | none => rfl
      | some i => rfl
  | fromComm index msg =>
    cases msg with
    | data payload =>
      dsimp only [execution_thread, consumed_add, fresh_add]
      cases hp : s.open_comms[index]? with
      | none => rfl
      | some comm => rfl
    | close =>
      dsimp only [execution_thread, consumed_add, fresh_add]
      cases hp : s.open_comms[index]? with
      | none => rfl
      | some comm => rfl
    | rpc id payload =>
      dsimp only [execution_thread, consumed_add, fresh_add]
      cases hp : s.open_comms[index]? with
      | none => rfl
      | some comm =>
        by_cases hmem : hm_mem id s.pending_rpcs
        · have hrem := hm_remove_of_mem id s.pending_rpcs hmem
          cases hr : hm_remove id s.pending_rpcs with
          | mk found rem =>
            rw [hr] at hrem
            cases found with
            | none => simp at hrem
            | some header =>
              simp only [hr, hmem, if_pos]
              simp only [Option.isSome_some, List.length] at hrem
              omega
        · have hrem := hm_remove_of_not_mem id s.pending_rpcs (by simpa using hmem)
          simp [hrem, hmem]

/-- Unfolding of the manager loop when the head iteration does not panic. -/
theorem run_manager_cons_no_panic {dead : List String} {s : CommManagerState}
    {input : ManagerInput} (rest : List ManagerInput)
    (h : (execution_thread dead s input).panicked = false) :
    run_manager dead s (input :: rest)
      = ((run_manager dead (execution_thread dead s input).state rest).1,
         (execution_thread dead s input).actions
           ++ (run_manager dead (execution_thread dead s input).state rest).2.1,
         (run_manager dead (execution_thread dead s input).state rest).2.2) := by
  simp only [run_manager, h]
  rfl

/-- Claim C5 (amended).  First conjunct: along any run, the pending table's
size changes by exactly (fresh `PendingRpc` insertions) − (comm `Rpc`
replies whose id was found), stated additively; from the empty initial table
the size therefore equals the number of `PendingRpc` events whose `msg_id`
was not already a key (a duplicate overwrites without growing the table)
minus the number of comm `Rpc` replies whose ids were found.  Second
conjunct: every `Rpc(request_id, payload)` from an open comm is handled in
exactly one of two ways — if the id is in the table the entry is removed and
an IOPub `comm_msg` reply tagged with the saved header is emitted, otherwise
an IOPub request-to-front-end is emitted, leaving the table unchanged. -/
theorem pending_rpc_consumption :
    (∀ (s : CommManagerState) (inputs : List ManagerInput),
      (run_manager [] s inputs).1.pending_rpcs.length + count_consumed_rpc s inputs
        = s.pending_rpcs.length + count_fresh_pending s inputs)
    ∧ (∀ (s : CommManagerState) (index : Nat) (comm : CommSocket)
        (id : String) (payload : JsonValue),
        s.open_comms[index]? = some comm →
        (∀ (header : JupyterHeader) (rem : List (String × JupyterHeader)),
          hm_remove id s.pending_rpcs = (some header, rem) →
          execution_thread [] s (ManagerInput.fromComm index (CommMsg.rpc id payload))
            = { state := { s with pending_rpcs := rem }
                actions := [ManagerAction.iopub
                  (IOPubMessage.commMsgReply header comm.comm_id payload)]
                panicked := false })
        ∧ (∀ (rem : List (String × JupyterHeader)),
          hm_remove id s.pending_rpcs = (none, rem) →
          execution_thread [] s (ManagerInput.fromComm index (CommMsg.rpc id payload))
            = { state := s
                actions := [ManagerAction.iopub
                  (IOPubMessage.commMsgRequest comm.comm_id payload)]
                panicked := false })) := by
  constructor
  · intro s inputs
    induction inputs generalizing s with
    | nil => rfl
    | cons input rest ih =>
      have hnp := execution_thread_no_dead_no_panic s input
      rw [run_manager_cons_no_panic rest hnp]
      show (run_manager [] (execution_thread [] s input).state rest).1.pending_rpcs.length
          + (consumed_add s input
              + count_consumed_rpc (execution_thread [] s input).state rest)
          = s.pending_rpcs.length
            + (fresh_add s input
                + count_fresh_pending (execution_thread [] s input).state rest)
      have hstep := pending_step s input
      have hrec := ih (execution_thread [] s input).state
      omega
  · intro s index comm id payload hcomm
    constructor
    · intro header rem hrem
      dsimp only [execution_thread]
      rw [hcomm, hrem]
    · intro rem hrem
      dsimp only [execution_thread]
      rw [hcomm, hrem]

def hdr_r7 : JupyterHeader :=
  { msg_id := "r7", session := "s", username := "u", date := "d"
    msg_type := "comm_msg", version := "5.3" }

/-- Whether an input is a `PendingRpc` event. -/
def is_pending_rpc : ManagerInput → Bool
  | ManagerInput.event (CommManagerEvent.pendingRpc _) => true
  | _ => false

def dup_pending_inputs : List ManagerInput :=
  [ManagerInput.event (CommManagerEvent.pendingRpc hdr_r7),
   ManagerInput.event (CommManagerEvent.pendingRpc hdr_r7)]

/-- Claim C5 (counterexample): two `PendingRpc` events with the same
`msg_id` and no comm replies leave a table of size 1, not 2 − 0 = 2: the
second insert overwrites the first, so the table's size does NOT equal the
number of `PendingRpc` events received minus the number of consumed
replies. -/
theorem pending_rpc_duplicate_insert :
    (run_manager [] init_manager dup_pending_inputs).1.pending_rpcs.length = 1
    ∧ (dup_pending_inputs.filter is_pending_rpc).length = 2
    ∧ (dup_pending_inputs.filter (fun i => !is_pending_rpc i)).length = 0
    ∧ (1 : Nat) ≠ 2 - 0 := by
  exact ⟨rfl, rfl, rfl, by decide⟩

def rpc_demo_state : CommManagerState :=
  { open_comms := [sock_c1], pending_rpcs := [("r7", hdr_r7)] }

/-- Witness for `pending_rpc_consumption` at concrete inputs. -/
theorem pending_rpc_consumption_witness :
    ((run_manager [] init_manager dup_pending_inputs).1.pending_rpcs.length
        + count_consumed_rpc init_manager dup_pending_inputs
      = init_manager.pending_rpcs.length
        + count_fresh_pending init_manager dup_pending_inputs)
    ∧ execution_thread [] rpc_demo_state (ManagerInput.fromComm 0 (CommMsg.rpc "r7" "ok"))
        = { state := { rpc_demo_state with pending_rpcs := [] }
            actions := [ManagerAction.iopub (IOPubMessage.commMsgReply hdr_r7 "c1" "ok")]
            panicked := false } := by
  refine ⟨pending_rpc_consumption.1 init_manager dup_pending_inputs, ?_⟩
  have h := (pending_rpc_consumption.2 rpc_demo_state 0 sock_c1 "r7" "ok" rfl).1
    hdr_r7 [] (by decide)
  exact h

def dead_demo_state : CommManagerState :=
  { open_comms := [sock_c1], pending_rpcs := [] }

/-- Claim C6: forwarding `Message(c1, msg)` into an open comm whose incoming
receiver has been dropped panics (`incoming_tx.send(msg).unwrap()`), killing
the comm-manager thread: the manager does NOT log and continue.  First
conjunct: with `c1` dead the iteration panics.  Second conjunct: with the
comm alive the same input forwards normally.  Third conjunct: after the
panic the manager processes nothing further — a subsequent `PendingRpc`
never reaches the table. -/
theorem comm_dead_send_panics :
    (execution_thread ["c1"] dead_demo_state
        (ManagerInput.event (CommManagerEvent.message "c1" (CommMsg.data "v")))).panicked = true
    ∧ (execution_thread [] dead_demo_state
        (ManagerInput.event (CommManagerEvent.message "c1" (CommMsg.data "v")))).actions
        = [ManagerAction.forward "c1" (CommMsg.data "v")]
    ∧ (run_manager ["c1"] dead_demo_state
        [ManagerInput.event (CommManagerEvent.message "c1" (CommMsg.data "v")),
         ManagerInput.event (CommManagerEvent.pendingRpc hdr_r7)]).1.pending_rpcs = []
    ∧ (run_manager ["c1"] dead_demo_state
        [ManagerInput.event (CommManagerEvent.message "c1" (CommMsg.data "v")),
         ManagerInput.event (CommManagerEvent.pendingRpc hdr_r7)]).2.2 = true := by
  exact ⟨rfl, rfl, rfl, rfl⟩

/-! ## StdIn reverse channel (`crates/amalthea/src/socket/stdin.rs`) -/

/-- An `input_request` payload (the prompt shown to the user). -/
structure InputRequest where
  prompt : String
deriving DecidableEq

/-- An `input_reply` payload. -/
structure InputReplyMsg where
  value : String
deriving DecidableEq

/-- A message arriving on the StdIn socket (relayed through `inbound_rx`):
either an input reply or some other frame (only replies are expected). -/
inductive StdinInbound where
  | input_reply (r : InputReplyMsg)
  | other_message (tag : String)
deriving DecidableEq

/-- Where `Stdin::listen` is in its loop: `idle` is the inner
request-waiting loop (selecting on `stdin_request_rx` and `interrupt_rx`
only — `inbound_rx` is NOT read there); `waiting` is the reply wait
(selecting on `inbound_rx` and `interrupt_rx` only). -/
inductive StdinMode where
  | idle
  | waiting
deriving DecidableEq

/-- The listener state: the mode plus the queued contents of the two
channels it is not currently draining.  Messages sent on a crossbeam channel
stay queued until the listener selects on that channel.  (The
`StdInRequest::CommRequest` variant is `todo!()` in the source and is not
modelled; requests are input requests.) -/
structure StdinState where
  mode : StdinMode
  q_req : List InputRequest
  q_in : List StdinInbound
deriving DecidableEq

/-- Observable actions of the listener: an `input_request` sent to the front
end (`outbound_tx`), a reply content delivered to the handler
(`input_reply_tx.send(reply.content)`), or the warning logged for an
unexpected non-reply frame. -/
inductive StdinAction where
  | sent_request (r : InputRequest)
  | delivered (value : String)
  | warned_unexpected (m : StdinInbound)
deriving DecidableEq

/-- One arrival, as resolved by the `select!` polling: a back-end request
becomes ready on `stdin_request_rx`, an interrupt on `interrupt_rx`, or an
inbound frame on the socket relay. -/
inductive StdinEvent where
  | request (r : InputRequest)
  | interrupt
  | inbound (m : StdinInbound)
deriving DecidableEq

/-- Run the listener until it blocks, structurally on the total queue size
(each step consumes one queued element, so the fuel `q_req.length +
q_in.length` never runs out).  In `idle` with a queued request the listener
sends it and starts waiting; in `waiting` with a queued inbound frame it
either delivers the reply content to the handler or warns on a non-reply
(`continue`, abandoning the current request); otherwise it blocks. -/
def drain_fuel : Nat → StdinMode → List InputRequest → List StdinInbound →
    StdinMode × List InputRequest × List StdinInbound × List StdinAction
  | Nat.succ fuel, StdinMode.idle, r :: q_req, q_in =>
    let rec_result := drain_fuel fuel StdinMode.waiting q_req q_in
    (rec_result.1, rec_result.2.1, rec_result.2.2.1,
      StdinAction.sent_request r :: rec_result.2.2.2)
  | Nat.succ fuel, StdinMode.waiting, q_req, m :: q_in =>
    let act :=
      match m with
      | StdinInbound.input_reply reply => StdinAction.delivered reply.value
      | StdinInbound.other_message tag =>
        StdinAction.warned_unexpected (StdinInbound.other_message tag)
    let rec_result := drain_fuel fuel StdinMode.idle q_req q_in
    (rec_result.1, rec_result.2.1, rec_result.2.2.1, act :: rec_result.2.2.2)
  | _, mode, q_req, q_in => (mode, q_req, q_in, [])

/-- Run the listener to quiescence from a state. -/
def drain (s : StdinState) : StdinState × List StdinAction :=
  let r := drain_fuel (s.q_req.length + s.q_in.length) s.mode s.q_req s.q_in
  ({ mode := r.1, q_req := r.2.1, q_in := r.2.2.1 }, r.2.2.2)

/-- One arrival processed by `Stdin::listen`.  A request or inbound frame is
appended to its channel queue and the listener drains; an interrupt is
always selectable (both selects listen on `interrupt_rx`): while waiting it
cancels the wait (`continue`), while idle it is consumed and ignored. -/
def stdin_step (s : StdinState) (e : StdinEvent) : StdinState × List StdinAction :=
  match e with
  | StdinEvent.request r => drain { s with q_req := s.q_req ++ [r] }
  | StdinEvent.inbound m => drain { s with q_in := s.q_in ++ [m] }
  | StdinEvent.interrupt =>
    match s.mode with
    | StdinMode.waiting => drain { s with mode := StdinMode.idle }
    | StdinMode.idle => (s, [])

/-- The listener over a whole arrival trace. -/
def stdin_run (s : StdinState) : List StdinEvent → StdinState × List StdinAction
  | [] => (s, [])
  | e :: rest =>
    let r := stdin_step s e
    let r' := stdin_run r.1 rest
    (r'.1, r.2 ++ r'.2)

/-- The initial listener state. -/
def stdin_init : StdinState :=
  { mode := StdinMode.idle, q_req := [], q_in := [] }

def stale_trace : List StdinEvent :=
  [StdinEvent.request { prompt := "p1" },
   StdinEvent.interrupt,
   StdinEvent.inbound (StdinInbound.input_reply { value := "hi" }),
   StdinEvent.request { prompt := "p2" }]

/-- Claim C7 (counterexample): a reply arriving after an interrupt cancelled
the wait is neither logged nor dropped — while idle the listener does not
read `inbound_rx` at all, so the reply stays queued and IS delivered to the
handler as the answer to the NEXT request.  In the trace below, request p1
is interrupted, the stale reply "hi" arrives, and after request p2 is sent
the listener immediately delivers "hi" as p2's answer; no warning action
occurs anywhere in the run. -/
theorem stdin_stale_reply_delivered :
    (stdin_run stdin_init stale_trace).2
      = [StdinAction.sent_request { prompt := "p1" },
         StdinAction.sent_request { prompt := "p2" },
         StdinAction.delivered "hi"]
    ∧ (stdin_run stdin_init stale_trace).1
      = { mode := StdinMode.idle, q_req := [], q_in := [] } := by
  exact ⟨rfl, rfl⟩

/-- In `idle` with no queued request the listener blocks, whatever the fuel. -/
theorem drain_fuel_idle_nil :
    ∀ (fuel : Nat) (q_in : List StdinInbound),
      drain_fuel fuel StdinMode.idle [] q_in = (StdinMode.idle, [], q_in, []) := by
  intro fuel q_in
  cases fuel with
  | zero => rfl
  | succ f => rfl

/-- In `waiting` with no queued inbound frame the listener blocks. -/
theorem drain_fuel_waiting_nil :
    ∀ (fuel : Nat) (q_req : List InputRequest),
      drain_fuel fuel StdinMode.waiting q_req [] = (StdinMode.waiting, q_req, [], []) := by
  intro fuel q_req
  cases fuel with
  | zero => rfl
  | succ f => rfl

/-- Unfolding: in `idle` with a queued request, one fuel step sends it. -/
theorem drain_fuel_idle_cons :
    ∀ (fuel : Nat) (r : InputRequest) (q_req : List InputRequest)
      (q_in : List StdinInbound),
      drain_fuel (fuel + 1) StdinMode.idle (r :: q_req) q_in
        = ((drain_fuel fuel StdinMode.waiting q_req q_in).1,
           (drain_fuel fuel StdinMode.waiting q_req q_in).2.1,
           (drain_fuel fuel StdinMode.waiting q_req q_in).2.2.1,
           StdinAction.sent_request r
             :: (drain_fuel fuel StdinMode.waiting q_req q_in).2.2.2) := by
  intro fuel r q_req q_in
  rfl

/-- Unfolding: in `waiting` with a queued reply, one fuel step delivers it. -/
theorem drain_fuel_waiting_reply :
    ∀ (fuel : Nat) (q_req : List InputRequest) (reply : InputReplyMsg)
      (q_in : List StdinInbound),
      drain_fuel (fuel + 1) StdinMode.waiting q_req
          (StdinInbound.input_reply reply :: q_in)
        = ((drain_fuel fuel StdinMode.idle q_req q_in).1,
           (drain_fuel fuel StdinMode.idle q_req q_in).2.1,
           (drain_fuel fuel StdinMode.idle q_req q_in).2.2.1,
           StdinAction.delivered reply.value
             :: (drain_fuel fuel StdinMode.idle q_req q_in).2.2.2) := by
  intro fuel q_req reply q_in
  rfl

/-- Claim C7 (amended): a non-reply frame received while waiting is logged
and dropped, abandoning the current request (first conjunct); a reply
arriving while no request is outstanding is not read at that time — it
stays queued on the inbound channel with no action (second conjunct) — and
is delivered to the handler as the answer to the next request (third
conjunct). -/
theorem stdin_reply_queueing :
    (∀ (tag : String),
      stdin_step { mode := StdinMode.waiting, q_req := [], q_in := [] }
          (StdinEvent.inbound (StdinInbound.other_message tag))
        = ({ mode := StdinMode.idle, q_req := [], q_in := [] },
           [StdinAction.warned_unexpected (StdinInbound.other_message tag)]))
    ∧ (∀ (m : StdinInbound) (q_in : List StdinInbound),
      stdin_step { mode := StdinMode.idle, q_req := [], q_in := q_in }
          (StdinEvent.inbound m)
        = ({ mode := StdinMode.idle, q_req := [], q_in := q_in ++ [m] }, []))
    ∧ (∀ (reply : InputReplyMsg) (q_in : List StdinInbound) (r : InputRequest),
      stdin_step { mode := StdinMode.idle, q_req := [], q_in := StdinInbound.input_reply reply :: q_in }
          (StdinEvent.request r)
        = ({ mode := StdinMode.idle, q_req := [], q_in := q_in },
           [StdinAction.sent_request r, StdinAction.delivered reply.value])) := by
  refine ⟨fun tag => rfl, ?_, ?_⟩
  · intro m q_in
    show drain { mode := StdinMode.idle, q_req := [], q_in := q_in ++ [m] } = _
    simp only [drain, drain_fuel_idle_nil]
  · intro reply q_in r
    show drain { mode := StdinMode.idle, q_req := [r]
                 q_in := StdinInbound.input_reply reply :: q_in } = _
    have hf : ([r] : List InputRequest).length
          + (StdinInbound.input_reply reply :: q_in).length
        = q_in.length + 1 + 1 := by
      simp [Nat.add_comm]
    simp only [drain]
    rw [hf, drain_fuel_idle_cons, drain_fuel_waiting_reply, drain_fuel_idle_nil]

/-! ## LSP backend lease discipline (`crates/ark/src/lsp/backend.rs`) -/

/-- The kind of lease a handler requests on entry: `backend_read_method!`
takes `self.lock.read().await` (shared), `backend_write_method!` takes
`self.lock.write().await` (exclusive). -/
inductive LeaseKind where
  | shared
  | exclusive
deriving DecidableEq

/-- The `LanguageServer` methods implemented by `Backend`, named as in the
source (the `initialize` method is `init_method` here). -/
inductive LspMethod where
  | init_method
  | initialized_note
  | shutdown
  | did_change_workspace_folders
  | did_change_configuration
  | did_change_watched_files
  | symbol
  | document_symbol
  | execute_command
  | did_open
  | did_change
  | did_save
  | did_close
  | completion
  | completion_resolve
  | hover
  | signature_help
  | goto_definition
  | goto_implementation
  | selection_range
  | references
deriving DecidableEq

/-- The lease each handler acquires on entry, transcribed from which macro
(`backend_write_method!` vs `backend_read_method!`) the source body opens
with.  Note that `did_open` (line 293) and `did_close` (line 346) open with
`backend_read_method!` — a SHARED lease. -/
def lease_kind : LspMethod → LeaseKind
  | LspMethod.init_method => LeaseKind.exclusive
  | LspMethod.initialized_note => LeaseKind.shared
  | LspMethod.shutdown => LeaseKind.shared
  | LspMethod.did_change_workspace_folders => LeaseKind.exclusive
  | LspMethod.did_change_configuration => LeaseKind.exclusive
  | LspMethod.did_change_watched_files => LeaseKind.exclusive
  | LspMethod.symbol => LeaseKind.shared
  | LspMethod.document_symbol => LeaseKind.shared
  | LspMethod.execute_command => LeaseKind.shared
  | LspMethod.did_open => LeaseKind.shared
  | LspMethod.did_change => LeaseKind.exclusive
  | LspMethod.did_save => LeaseKind.shared
  | LspMethod.did_close => LeaseKind.shared
  | LspMethod.completion => LeaseKind.shared
  | LspMethod.completion_resolve => LeaseKind.shared
  | LspMethod.hover => LeaseKind.shared
  | LspMethod.signature_help => LeaseKind.shared
  | LspMethod.goto_definition => LeaseKind.shared
  | LspMethod.goto_implementation => LeaseKind.shared
  | LspMethod.selection_range => LeaseKind.shared
  | LspMethod.references => LeaseKind.shared

/-- Whether the handler body mutates the shared world (the `documents` map,
the `workspace` folders, or the document entries), transcribed from the
source bodies: `initialize` pushes workspace folders, `did_open` inserts
into `documents`, `did_change` mutates the document via `on_did_change`,
`did_close` removes from `documents`. -/
def mutates_state : LspMethod → Bool
  | LspMethod.init_method => true
  | LspMethod.did_open => true
  | LspMethod.did_change => true
  | LspMethod.did_close => true
  | _ => false

/-- Claim C8: the spec lists `didOpen` and `didClose` among the write
handlers that must take the exclusive lease, and the source's own comment
says state-changing handlers require the exclusive lock; but `did_open` and
`did_close` enter through `backend_read_method!`, acquiring only a SHARED
lease while they insert into / remove from the document map.  The remaining
listed handlers do take the exclusive lease. -/
theorem lsp_open_close_shared_lease :
    lease_kind LspMethod.did_open = LeaseKind.shared
    ∧ lease_kind LspMethod.did_close = LeaseKind.shared
    ∧ mutates_state LspMethod.did_open = true
    ∧ mutates_state LspMethod.did_close = true
    ∧ LeaseKind.shared ≠ LeaseKind.exclusive
    ∧ lease_kind LspMethod.init_method = LeaseKind.exclusive
    ∧ lease_kind LspMethod.did_change = LeaseKind.exclusive
    ∧ lease_kind LspMethod.did_change_configuration = LeaseKind.exclusive
    ∧ lease_kind LspMethod.did_change_watched_files = LeaseKind.exclusive
    ∧ lease_kind LspMethod.did_change_workspace_folders = LeaseKind.exclusive := by
  exact ⟨rfl, rfl, rfl, rfl, by decide, rfl, rfl, rfl, rfl, rfl⟩
